import Mathlib

set_option autoImplicit false

/-!
Verification development for the supplier-matcher repository.

The development shallowly embeds the two core modules:

* `knowledge_base.py` (`SupplierKnowledgeBase`): an append-only store holding a
  FAISS flat-L2 vector index in lock-step with a JSON metadata list, persisted
  as two files, plus a semantic search operation.
* `hybrid_search.py` (`HybridSearchEngine`): local-first search with a
  conditional Google fallback and a dedup/budget merge.

External collaborators are modelled by their observable outcomes:

* the embedding provider (`self.embeddings.embed_query`) is modelled by an
  `Option V` result (`none` = the call raised an exception);
* the FAISS nearest-neighbour query (`self.index.search`) is modelled by an
  oracle function returning the `(distance, index)` pairs; theorems that need
  FAISS's output contract (ascending distances, non-negative L2 distances)
  take it as a hypothesis;
* disk writes are modelled by explicit per-file success flags
  (`faiss.write_index` runs before `json.dump`, so the metadata file is only
  written when the index write succeeded);
* Python floats are modelled as real numbers; `round(x, 3)` is modelled with
  Mathlib's integer rounding (the two differ only on exact half-ties, which
  round half-to-even in Python).
-/

namespace SupplierMatcher

/-! ## Embedding index store state (`SupplierKnowledgeBase`)

`V` is the type of embedding vectors, `M` the type of metadata records;
both are irrelevant to the store's control flow and are kept abstract.
-/

/-- In-memory state of a `SupplierKnowledgeBase`: the FAISS index (list of
vectors, in insertion order) and `self.suppliers` (the metadata list). -/
structure KB (V M : Type) where
  index : List V
  suppliers : List M
  deriving DecidableEq, Repr

/-- On-disk state: contents of `faiss.index` and `metadata.json`
(`none` = the file does not exist). -/
structure DiskState (V M : Type) where
  idxFile : Option (List V)
  metaFile : Option (List M)
  deriving DecidableEq, Repr

/-- Outcome of the two disk writes attempted by `_save_index`. -/
structure SaveOutcome where
  indexWriteOk : Bool
  metaWriteOk : Bool
  deriving DecidableEq, Repr

/-- Model of `_save_index`: `faiss.write_index` first, then `json.dump`;
the metadata file is only reached if the index write succeeded, and any
exception is caught inside the method (nothing propagates). -/
def saveIndex {V M : Type} (kb : KB V M) (d : DiskState V M) (o : SaveOutcome) :
    DiskState V M :=
  ⟨if o.indexWriteOk then some kb.index else d.idxFile,
   if o.indexWriteOk && o.metaWriteOk then some kb.suppliers else d.metaFile⟩

/-- Result of `add_supplier`: the new in-memory state, the new disk state and
the returned boolean. -/
structure AddResult (V M : Type) where
  kb : KB V M
  disk : DiskState V M
  ok : Bool
  deriving DecidableEq, Repr

/-- Model of `add_supplier`.  `embedResult` is the outcome of
`self.embeddings.embed_query(content)` (`none` = it raised); `meta` is the
record built by `_build_metadata`.  On embedding failure the `except` branch
returns `False` with nothing modified; otherwise the vector and the metadata
are appended in the same call and `_save_index` runs (its failures are
swallowed), and `True` is returned. -/
def addSupplier {V M : Type} (kb : KB V M) (d : DiskState V M)
    (embedResult : Option V) (meta : M) (o : SaveOutcome) : AddResult V M :=
  match embedResult with
  | none => ⟨kb, d, false⟩
  | some v =>
      let kb' : KB V M := ⟨kb.index ++ [v], kb.suppliers ++ [meta]⟩
      ⟨kb', saveIndex kb' d o, true⟩

/-- Model of `add_suppliers_batch`: each item's embedding either succeeds
(`some v`) or raises and is skipped; all successful vectors are added to the
index and all corresponding metadata records appended in one step, followed by
a single `_save_index`; the returned count is the number of successfully
embedded items.  When no item succeeds neither structure is touched and no
save is attempted. -/
def addSuppliersBatch {V M : Type} (kb : KB V M) (d : DiskState V M)
    (items : List (Option V × M)) (o : SaveOutcome) :
    KB V M × DiskState V M × ℕ :=
  let succ := items.filterMap (fun it => it.1.map (fun v => (v, it.2)))
  if succ.isEmpty then (kb, d, succ.length)
  else
    let kb' : KB V M := ⟨kb.index ++ succ.map Prod.fst,
                         kb.suppliers ++ succ.map Prod.snd⟩
    (kb', saveIndex kb' d o, succ.length)

/-- Model of `_load_or_create_index`: if both files exist, load them;
otherwise start from an empty index and an empty metadata list. -/
def loadOrCreateIndex {V M : Type} (d : DiskState V M) : KB V M :=
  match d.idxFile, d.metaFile with
  | some i, some m => ⟨i, m⟩
  | _, _ => ⟨[], []⟩

/-- One store operation, carrying the outcomes of its external calls. -/
inductive KBOp (V M : Type) where
  | add (embedResult : Option V) (meta : M) (o : SaveOutcome)
  | addBatch (items : List (Option V × M)) (o : SaveOutcome)
  | reload
  deriving DecidableEq, Repr

/-- Apply one operation to the (memory, disk) pair. -/
def KBOp.apply {V M : Type} (s : KB V M × DiskState V M) :
    KBOp V M → KB V M × DiskState V M
  | .add e m o => let r := addSupplier s.1 s.2 e m o; (r.kb, r.disk)
  | .addBatch items o => let r := addSuppliersBatch s.1 s.2 items o; (r.1, r.2.1)
  | .reload => (loadOrCreateIndex s.2, s.2)

/-- Run a sequence of store operations. -/
def runOps {V M : Type} (s : KB V M × DiskState V M) :
    List (KBOp V M) → KB V M × DiskState V M
  | [] => s
  | op :: rest => runOps (op.apply s) rest

/-- The lock-step invariant: metadata length equals the number of vectors. -/
def lockstep {V M : Type} (kb : KB V M) : Prop :=
  kb.index.length = kb.suppliers.length

/-- Disk-side lock-step: whenever both files exist they have equal lengths. -/
def diskOk {V M : Type} (d : DiskState V M) : Prop :=
  ∀ i ∈ d.idxFile, ∀ m ∈ d.metaFile, i.length = m.length

/-- A save outcome that never writes the index file while failing the
metadata file. -/
def goodSave (o : SaveOutcome) : Prop :=
  o.indexWriteOk = true → o.metaWriteOk = true

/-- An operation whose (possibly failing) save cannot leave the two disk
files out of step. -/
def goodOp {V M : Type} : KBOp V M → Prop
  | .add _ _ o => goodSave o
  | .addBatch _ o => goodSave o
  | .reload => True

instance : DecidablePred goodSave := fun o => by
  unfold goodSave; infer_instance

instance {V M : Type} : DecidablePred (@goodOp V M) := fun op => by
  cases op <;> simp only [goodOp] <;> infer_instance

/-! ## Similarity search (`search_suppliers`, `_search_local`)

Stored metadata records are the dictionaries built by `_build_metadata`.
-/

/-- A stored metadata record, as built by `_build_metadata`. -/
structure SupplierMeta where
  company_name : String
  category : String
  website : String
  match_type : String
  supplier_score : ℤ
  contact_person : String
  email : String
  phone : String
  linkedin : String
  cooperation_status : String
  add_date : String
  source : String
  deriving DecidableEq, Repr

/-- A search hit: a copy of the stored record with the two keys
`similarity_score` and `distance` added by `search_suppliers`. -/
structure ScoredSupplier where
  meta : SupplierMeta
  similarity_score : ℝ
  distance : ℝ

/-- Model of Python's `round(x, 3)` (three decimal places).  Mathlib's
`round` rounds half away from the floor while Python rounds half to even;
the two agree except on exact `.0005` ties. -/
noncomputable def round3 (x : ℝ) : ℝ :=
  ((round (x * 1000) : ℤ) : ℝ) / 1000

/-- The result-construction loop of `search_suppliers`: for each
`(distance, idx)` pair returned by FAISS, skip out-of-range indices, convert
the distance to `similarity = exp(-distance / 10)`, keep the record only when
`similarity >= min_similarity`, and annotate the copy with the rounded
similarity and rounded distance. -/
noncomputable def searchSuppliersPost (suppliers : List SupplierMeta)
    (minSim : ℝ) (pairs : List (ℝ × ℕ)) : List ScoredSupplier :=
  pairs.filterMap (fun di =>
    match suppliers[di.2]? with
    | none => none
    | some sup =>
        if minSim ≤ Real.exp (-di.1 / 10) then
          some ⟨sup, round3 (Real.exp (-di.1 / 10)), round3 di.1⟩
        else none)

/-- Model of `search_suppliers(query, k, min_similarity)`.  `embedResult` is
the outcome of embedding the query (`none` = the embedding call raised, which
the surrounding `try`/`except` turns into a plain `[]` return); `faissOut`
models `self.index.search`, called with `min(k, len(self.suppliers))`.  An
empty store returns `[]` before anything else happens. -/
noncomputable def searchSuppliers {V : Type} (suppliers : List SupplierMeta)
    (embedResult : Option V) (faissOut : V → ℕ → List (ℝ × ℕ))
    (k : ℕ) (minSim : ℝ) : List ScoredSupplier :=
  if suppliers.length = 0 then []
  else
    match embedResult with
    | none => []
    | some qv => searchSuppliersPost suppliers minSim (faissOut qv (min k suppliers.length))

/-- Model of `HybridSearchEngine._search_local`: calls
`search_suppliers(query, k=k)` — leaving `min_similarity` at its default of
`0.5` — and then filters the returned records by the caller's
`min_similarity` against the (rounded) `similarity_score` key. -/
noncomputable def searchLocal {V : Type} (suppliers : List SupplierMeta)
    (embedResult : Option V) (faissOut : V → ℕ → List (ℝ × ℕ))
    (k : ℕ) (minSim : ℝ) : List ScoredSupplier :=
  (searchSuppliers suppliers embedResult faissOut k (1/2)).filter
    (fun r => decide (minSim ≤ r.similarity_score))

/-! ## Hybrid search (`HybridSearchEngine.search`, `_search_google`,
`_merge_results`) -/

/-- A raw web-search result, as returned by `create_google_search_tool`. -/
structure GRaw where
  title : String
  link : String
  snippet : String
  deriving DecidableEq, Repr

/-- A web result after `_search_google` tagged it with
`source = "Google搜索"` and `similarity_score = None`. -/
structure GCand where
  title : String
  link : String
  snippet : String
  source : String
  similarity_score : Option ℝ

/-- Model of `_search_google(product_info, k)`: tag each raw result and
return the first `k`. -/
def searchGoogle (googleRaw : List GRaw) (k : ℕ) : List GCand :=
  (googleRaw.map (fun g => ⟨g.title, g.link, g.snippet, "Google搜索", none⟩)).take k

/-- The dictionary `_merge_results` builds for each local result. -/
structure LocalCand where
  title : String
  link : String
  match_type : String
  score : ℤ
  reason : String
  contactName : String
  contactEmail : String
  contactPhone : String
  source : String
  cooperation_status : String
  similarity_score : Option ℝ

/-- Mapping of a local search hit into the merged-candidate dictionary built
by `_merge_results`.  `fmt2` models Python's `f"{x:.2f}"` float formatting,
which the claims never inspect.  Note the `score` key: the local dictionary
stores the value under `supplier_score`, so `supplier.get("score", 0)`
always yields the default `0`. -/
def mergedLocalEntry (fmt2 : ℝ → String) (r : ScoredSupplier) : LocalCand :=
  ⟨r.meta.company_name, r.meta.website, r.meta.match_type, 0,
   "本地知识库匹配（相似度: " ++ fmt2 r.similarity_score ++ "）",
   r.meta.contact_person, r.meta.email, r.meta.phone,
   "本地知识库", r.meta.cooperation_status, some r.similarity_score⟩

/-- An entry of the merged result list (Python keeps heterogeneous
dictionaries in one list: locally mapped ones and raw web ones). -/
inductive MEntry where
  | loc (c : LocalCand)
  | web (g : GCand)

/-- The `title` key of a merged entry. -/
def MEntry.title : MEntry → String
  | .loc c => c.title
  | .web g => g.title

/-- The `source` key of a merged entry. -/
def MEntry.source : MEntry → String
  | .loc c => c.source
  | .web g => g.source

/-- The web-result loop of `_merge_results`: skip a result whose lowercased
title is already known, otherwise append it (and its name), stopping as soon
as the accumulated count has reached `target` (the length check runs after
the append). -/
def mergeLoop (merged : List MEntry) (existing : List String) :
    List GCand → ℕ → List MEntry
  | [], _ => merged
  | g :: rest, target =>
      if g.title.toLower ∈ existing then
        mergeLoop merged existing rest target
      else if target ≤ merged.length + 1 then
        merged ++ [MEntry.web g]
      else
        mergeLoop (merged ++ [MEntry.web g]) (existing ++ [g.title.toLower])
          rest target

/-- Model of `_merge_results(local_results, google_results, target_count)`:
map the local results first, collect their lowercased titles, run the web
loop, and truncate the final list to `target_count`. -/
def mergeResults (fmt2 : ℝ → String) (localResults : List ScoredSupplier)
    (googleResults : List GCand) (targetCount : ℕ) : List MEntry :=
  let base := localResults.map (fun r => MEntry.loc (mergedLocalEntry fmt2 r))
  let existing := base.map (fun e => e.title.toLower)
  (mergeLoop base existing googleResults targetCount).take targetCount

/-- The statistics dictionary built by `HybridSearchEngine.search`. -/
structure SearchStats where
  local_count : ℕ
  google_count : ℕ
  total_count : ℕ
  sourcesLocal : ℕ
  sourcesGoogle : ℕ
  deriving DecidableEq, Repr

/-- Result of `HybridSearchEngine.search`, instrumented with whether
`_search_google` was invoked. -/
structure HybridResult where
  merged : List MEntry
  stats : SearchStats
  googleCalled : Bool

/-- Model of `HybridSearchEngine.search(product_info, local_k, google_k,
min_similarity)`.  Query construction and embedding are abstracted into
`embedResult`; `googleRaw` is what `create_google_search_tool` would return.
The web search runs only when `len(local_results) < google_k`, and the merge
is called with `google_k` as its `target_count`. -/
noncomputable def hybridSearch {V : Type} (fmt2 : ℝ → String)
    (suppliers : List SupplierMeta) (embedResult : Option V)
    (faissOut : V → ℕ → List (ℝ × ℕ)) (googleRaw : List GRaw)
    (localK googleK : ℕ) (minSim : ℝ) : HybridResult :=
  let localResults := searchLocal suppliers embedResult faissOut localK minSim
  let googleResults :=
    if localResults.length < googleK then searchGoogle googleRaw googleK else []
  let merged := mergeResults fmt2 localResults googleResults googleK
  ⟨merged,
   ⟨localResults.length, googleResults.length, merged.length,
    localResults.length,
    (merged.filter (fun r => r.source == "Google搜索")).length⟩,
   decide (localResults.length < googleK)⟩

/-! ## Document-text construction (`_build_document_content`) -/

/-- The supplier-dictionary fields read by `_build_document_content`
(each `supplier.get(key, "")` with a missing key modelled as `""`). -/
structure SupplierInput where
  title : String
  category : String
  snippet : String
  reason : String
  match_type : String
  deriving DecidableEq, Repr

/-- Model of `_build_document_content`: build the five labelled parts and
join the truthy (non-empty-string) ones with a newline. -/
def buildDocumentContent (s : SupplierInput) : String :=
  let content_parts := ["公司名称: " ++ s.title, "类别: " ++ s.category,
    "类型: " ++ s.match_type, "描述: " ++ s.snippet, "评价: " ++ s.reason]
  String.intercalate "\n" (content_parts.filter (fun p => !(p == "")))

/-- Modelled from the spec: the document text as §4.3 of the specification
words it — labelled lines for company name, category, match type, snippet
and reason, in that order, "omitting any field that is empty", joined with a
newline.  Used only to compare the code's behaviour against the spec's. -/
def buildDocumentContentSpec (s : SupplierInput) : String :=
  String.intercalate "\n"
    (([("公司名称: ", s.title), ("类别: ", s.category), ("类型: ", s.match_type),
       ("描述: ", s.snippet), ("评价: ", s.reason)]).filterMap
      (fun lv => if lv.2 == "" then none else some (lv.1 ++ lv.2)))

/-! ## Concrete sample values used by counterexamples and witnesses -/

/-- A concrete stored metadata record. -/
def sampleMeta (name : String) : SupplierMeta :=
  ⟨name, "消费电子", "https://example.com", "制造商", 90, "John",
   "john@example.com", "+86-123", "", "未联系", "2024-01-01", "Google搜索"⟩

/-- A concrete four-record store. -/
def sampleStore4 : List SupplierMeta :=
  [sampleMeta "A", sampleMeta "B", sampleMeta "C", sampleMeta "D"]

/-- A FAISS oracle returning four hits at distance 0. -/
noncomputable def faissFour : ℕ → ℕ → List (ℝ × ℕ) :=
  fun _ _ => [(0, 0), (0, 1), (0, 2), (0, 3)]

/-- A FAISS oracle returning a single hit at distance 10. -/
noncomputable def faissTen : ℕ → ℕ → List (ℝ × ℕ) :=
  fun _ _ => [(10, 0)]

/-- A FAISS oracle returning a single hit at distance 0. -/
noncomputable def faissZero : ℕ → ℕ → List (ℝ × ℕ) :=
  fun _ _ => [(0, 0)]

/-- A FAISS oracle returning no hits. -/
def faissNone : ℕ → ℕ → List (ℝ × ℕ) :=
  fun _ _ => []

/-- A fixed stand-in for Python's two-decimal float formatting. -/
def fmtConst : ℝ → String := fun _ => "1.00"

/-! ## Helper lemmas -/

theorem round3_one : round3 (1 : ℝ) = 1 := by
  unfold round3
  rw [one_mul, show ((1000 : ℝ)) = ((1000 : ℤ) : ℝ) by norm_num, round_intCast]
  norm_num

theorem round3_zero : round3 (0 : ℝ) = 0 := by
  unfold round3
  rw [zero_mul, round_zero]
  norm_num

theorem round3_mono {x y : ℝ} (h : x ≤ y) : round3 x ≤ round3 y := by
  unfold round3
  have h1 : round (x * 1000) ≤ round (y * 1000) := by
    rw [round_eq, round_eq]
    exact Int.floor_le_floor (by linarith)
  have h2 : ((round (x * 1000) : ℤ) : ℝ) ≤ ((round (y * 1000) : ℤ) : ℝ) := by
    exact_mod_cast h1
  linarith

theorem exp_neg_one_lt_half : Real.exp (-1) < 1 / 2 := by
  rw [Real.exp_neg]
  have h2 : (2 : ℝ) < Real.exp 1 :=
    lt_trans (by norm_num) Real.exp_one_gt_d9
  have h3 : (Real.exp 1)⁻¹ < 2⁻¹ := inv_lt_inv_of_lt (by norm_num) h2
  linarith [h3]

theorem three_tenths_lt_exp_neg_one : (3 / 10 : ℝ) < Real.exp (-1) := by
  rw [Real.exp_neg]
  have h1 : Real.exp 1 < 10 / 3 :=
    lt_trans Real.exp_one_lt_d9 (by norm_num)
  have h3 : (10 / 3 : ℝ)⁻¹ < (Real.exp 1)⁻¹ :=
    inv_lt_inv_of_lt (Real.exp_pos 1) h1
  have : ((10 : ℝ) / 3)⁻¹ = 3 / 10 := by norm_num
  linarith

theorem append_label_ne_empty (lab t : String) (h : lab ≠ "") : lab ++ t ≠ "" := by
  intro he
  apply h
  have hlen := congrArg String.length he
  rw [String.length_append] at hlen
  simp only [String.length_empty] at hlen
  have hl : lab.length = 0 := by omega
  cases lab with
  | mk d =>
    simp [String.length] at hl
    simp [hl]

theorem loadOrCreateIndex_lockstep {V M : Type} (d : DiskState V M)
    (hd : diskOk d) : lockstep (loadOrCreateIndex d) := by
  unfold loadOrCreateIndex lockstep
  cases hi : d.idxFile with
  | none => simp
  | some i =>
    cases hm : d.metaFile with
    | none => simp
    | some m =>
      simp only
      exact hd i (by rw [hi]; rfl) m (by rw [hm]; rfl)

theorem saveIndex_diskOk {V M : Type} (kb : KB V M) (d : DiskState V M)
    (o : SaveOutcome) (hkb : lockstep kb) (hd : diskOk d) (ho : goodSave o) :
    diskOk (saveIndex kb d o) := by
  unfold saveIndex diskOk
  cases hio : o.indexWriteOk with
  | false =>
    simpa using fun i hi m hm => hd i hi m hm
  | true =>
    have hmo : o.metaWriteOk = true := ho hio
    simp only [hmo, if_true, Bool.and_self]
    intro i hi m hm
    rw [Option.mem_def, Option.some.injEq] at hi hm
    rw [← hi, ← hm]
    exact hkb

theorem goodOp_preserves {V M : Type} (s : KB V M × DiskState V M)
    (op : KBOp V M) (hl : lockstep s.1) (hd : diskOk s.2) (hop : goodOp op) :
    lockstep (op.apply s).1 ∧ diskOk (op.apply s).2 := by
  cases op with
  | add e m o =>
    cases e with
    | none => exact ⟨hl, hd⟩
    | some v =>
      have hkb' : lockstep (⟨s.1.index ++ [v], s.1.suppliers ++ [m]⟩ : KB V M) := by
        unfold lockstep at hl ⊢
        simp [hl]
      exact ⟨hkb', saveIndex_diskOk _ _ _ hkb' hd hop⟩
  | addBatch items o =>
    simp only [KBOp.apply, addSuppliersBatch]
    by_cases hempty :
        (items.filterMap (fun it => it.1.map (fun v => (v, it.2)))).isEmpty
    · simp only [hempty, if_true]
      exact ⟨hl, hd⟩
    · simp only [hempty, if_false]
      have hkb' : lockstep
          (⟨s.1.index ++ (items.filterMap (fun it => it.1.map (fun v => (v, it.2)))).map Prod.fst,
            s.1.suppliers ++ (items.filterMap (fun it => it.1.map (fun v => (v, it.2)))).map Prod.snd⟩ :
            KB V M) := by
        unfold lockstep at hl ⊢
        simp [hl]
      exact ⟨hkb', saveIndex_diskOk _ _ _ hkb' hd hop⟩
  | reload =>
    exact ⟨loadOrCreateIndex_lockstep _ hd, hd⟩

theorem runOps_preserves {V M : Type} (ops : List (KBOp V M)) :
    ∀ s : KB V M × DiskState V M, lockstep s.1 → diskOk s.2 →
      (∀ op ∈ ops, goodOp op) →
      lockstep (runOps s ops).1 ∧ diskOk (runOps s ops).2 := by
  induction ops with
  | nil => intro s hl hd _; exact ⟨hl, hd⟩
  | cons op rest ih =>
    intro s hl hd hops
    have hstep := goodOp_preserves s op hl hd (hops op (by simp))
    exact ih (op.apply s) hstep.1 hstep.2 (fun o ho => hops o (by simp [ho]))

theorem mem_searchSuppliersPost (sups : List SupplierMeta) (msim : ℝ)
    (pairs : List (ℝ × ℕ)) (r : ScoredSupplier) :
    r ∈ searchSuppliersPost sups msim pairs ↔
      ∃ p ∈ pairs, sups[p.2]? = some r.meta ∧
        msim ≤ Real.exp (-p.1 / 10) ∧
        r.similarity_score = round3 (Real.exp (-p.1 / 10)) ∧
        r.distance = round3 p.1 := by
  unfold searchSuppliersPost
  rw [List.mem_filterMap]
  constructor
  · rintro ⟨di, hdi, hf⟩
    cases hsup : sups[di.2]? with
    | none => rw [hsup] at hf; cases hf
    | some sup =>
      rw [hsup] at hf
      dsimp only at hf
      by_cases hc : msim ≤ Real.exp (-di.1 / 10)
      · rw [if_pos hc] at hf
        cases hf
        exact ⟨di, hdi, hsup, hc, rfl, rfl⟩
      · rw [if_neg hc] at hf
        cases hf
  · rintro ⟨p, hp, hmeta, hc, hs, hd⟩
    refine ⟨p, hp, ?_⟩
    rw [hmeta]
    dsimp only
    rw [if_pos hc]
    cases r with
    | mk meta sim dist =>
      simp only at hs hd
      rw [hs, hd]

theorem searchSuppliersPost_pairwise (sups : List SupplierMeta) (msim : ℝ)
    (pairs : List (ℝ × ℕ))
    (hsorted : pairs.Pairwise (fun a b => a.1 ≤ b.1)) :
    (searchSuppliersPost sups msim pairs).Pairwise
      (fun r s => r.distance ≤ s.distance) := by
  unfold searchSuppliersPost
  induction pairs with
  | nil => simp
  | cons p rest ih =>
    rw [List.filterMap_cons]
    have hrest := ih (List.Pairwise.sublist (List.sublist_cons_self p rest) hsorted)
    cases hsup : sups[p.2]? with
    | none =>
      dsimp only
      exact hrest
    | some sup =>
      dsimp only
      by_cases hc : msim ≤ Real.exp (-p.1 / 10)
      · rw [if_pos hc]
        refine List.Pairwise.cons ?_ hrest
        intro s hs
        rw [List.mem_filterMap] at hs
        obtain ⟨q, hq, hfq⟩ := hs
        have hpq : p.1 ≤ q.1 := (List.pairwise_cons.mp hsorted).1 q hq
        cases hsupq : sups[q.2]? with
        | none => rw [hsupq] at hfq; cases hfq
        | some supq =>
          rw [hsupq] at hfq
          dsimp only at hfq
          by_cases hcq : msim ≤ Real.exp (-q.1 / 10)
          · rw [if_pos hcq] at hfq
            cases hfq
            exact round3_mono hpq
          · rw [if_neg hcq] at hfq; cases hfq
      · rw [if_neg hc]
        exact hrest

theorem mergeLoop_spec (gs : List GCand) :
    ∀ (merged : List MEntry) (existing : List String) (target : ℕ),
    ∃ extra : List GCand,
      mergeLoop merged existing gs target = merged ++ extra.map MEntry.web ∧
      extra.Sublist gs ∧
      (extra.map (fun g => g.title.toLower)).Nodup ∧
      (∀ g ∈ extra, g.title.toLower ∉ existing) ∧
      merged.length + extra.length ≤ max target (merged.length + 1) ∧
      (merged.length + extra.length < target →
        ∀ g ∈ gs, g.title.toLower ∉ existing →
          g.title.toLower ∈ extra.map (fun g => g.title.toLower)) := by
  induction gs with
  | nil =>
    intro merged existing target
    refine ⟨[], by simp [mergeLoop], by simp, by simp, by simp, ?_, by simp⟩
    simp
  | cons g rest ih =>
    intro merged existing target
    by_cases hmem : g.title.toLower ∈ existing
    · obtain ⟨extra, h1, h2, h3, h4, h5, h6⟩ := ih merged existing target
      refine ⟨extra, ?_, h2.cons g, h3, h4, h5, ?_⟩
      · rw [mergeLoop, if_pos hmem]
        exact h1
      · intro hlt g' hg' hg'fresh
        rcases List.mem_cons.mp hg' with rfl | hg'
        · exact absurd hmem hg'fresh
        · exact h6 hlt g' hg' hg'fresh
    · by_cases htar : target ≤ merged.length + 1
      · refine ⟨[g], ?_, (List.nil_sublist rest).cons₂ g, by simp,
          by simpa using hmem, ?_, ?_⟩
        · rw [mergeLoop, if_neg hmem, if_pos htar]
          simp
        · simp
        · intro hlt
          simp only [List.length_singleton] at hlt
          omega
      · have htar' : merged.length + 1 < target := not_le.mp htar
        obtain ⟨extra, h1, h2, h3, h4, h5, h6⟩ :=
          ih (merged ++ [MEntry.web g]) (existing ++ [g.title.toLower]) target
        simp only [List.length_append, List.length_singleton] at h5 h6
        refine ⟨g :: extra, ?_, h2.cons₂ g, ?_, ?_, ?_, ?_⟩
        · rw [mergeLoop, if_neg hmem, if_neg htar, h1]
          simp
        · refine List.nodup_cons.mpr ⟨?_, h3⟩
          intro hmem2
          obtain ⟨g', hg', he⟩ := List.mem_map.mp hmem2
          have hnot := h4 g' hg'
          rw [he] at hnot
          exact hnot (by simp)
        · intro g' hg'
          rcases List.mem_cons.mp hg' with hg' | hg'
          · rw [hg']
            exact hmem
          · have hnot := h4 g' hg'
            intro hin
            exact hnot (by simp [hin])
        · have hmax : max target (merged.length + 1 + 1) = target :=
            max_eq_left (by omega)
          rw [hmax] at h5
          simp only [List.length_cons]
          exact le_trans (by omega) (le_max_left target (merged.length + 1))
        · intro hlt g' hg' hg'fresh
          simp only [List.length_cons] at hlt
          rcases List.mem_cons.mp hg' with rfl | hg'
          · simp
          · by_cases hname : g'.title.toLower = g.title.toLower
            · rw [hname]
              simp
            · have hfresh' : g'.title.toLower ∉ existing ++ [g.title.toLower] := by
                simp [hg'fresh, hname]
              have h6' := h6 (by omega) g' hg' hfresh'
              simp only [List.map_cons]
              exact List.mem_cons_of_mem _ h6'

theorem mergeResults_spec (fmt2 : ℝ → String) (localResults : List ScoredSupplier)
    (googleResults : List GCand) (t : ℕ) :
    ∃ extra : List GCand,
      mergeResults fmt2 localResults googleResults t =
        ((localResults.map (fun r => MEntry.loc (mergedLocalEntry fmt2 r)))
          ++ extra.map MEntry.web).take t ∧
      extra.Sublist googleResults ∧
      (extra.map (fun g => g.title.toLower)).Nodup ∧
      (∀ g ∈ extra, g.title.toLower ∉
        localResults.map (fun r => (mergedLocalEntry fmt2 r).title.toLower)) ∧
      localResults.length + extra.length ≤ max t (localResults.length + 1) ∧
      (localResults.length + extra.length < t →
        ∀ g ∈ googleResults, g.title.toLower ∉
            localResults.map (fun r => (mergedLocalEntry fmt2 r).title.toLower) →
          g.title.toLower ∈ extra.map (fun g => g.title.toLower)) := by
  obtain ⟨extra, h1, h2, h3, h4, h5, h6⟩ := mergeLoop_spec googleResults
    (localResults.map (fun r => MEntry.loc (mergedLocalEntry fmt2 r)))
    ((localResults.map (fun r => MEntry.loc (mergedLocalEntry fmt2 r))).map
      (fun e => e.title.toLower))
    t
  have hmapeq :
      (localResults.map (fun r => MEntry.loc (mergedLocalEntry fmt2 r))).map
        (fun e => e.title.toLower) =
      localResults.map (fun r => (mergedLocalEntry fmt2 r).title.toLower) := by
    simp [MEntry.title, Function.comp]
  rw [hmapeq] at h4 h6
  simp only [List.length_map] at h5 h6
  refine ⟨extra, ?_, h2, h3, h4, h5, h6⟩
  unfold mergeResults
  dsimp only
  rw [h1]

theorem mergeResults_length_le (fmt2 : ℝ → String) (a : List ScoredSupplier)
    (b : List GCand) (t : ℕ) : (mergeResults fmt2 a b t).length ≤ t := by
  unfold mergeResults
  dsimp only
  simp [List.length_take]

/-! ## Claim theorems -/

/-- Claim C2, counterexample: starting from a fresh store, an `add_supplier`
whose `_save_index` writes the FAISS index file but fails the metadata write,
followed by a reload from disk, leaves the store with 2 vectors but only 1
metadata record — the lock-step property of the claim fails for this
operation sequence. -/
theorem claim_C2_counterexample :
    (runOps (loadOrCreateIndex (⟨none, none⟩ : DiskState ℕ ℕ), ⟨none, none⟩)
      [KBOp.add (some 0) 0 ⟨true, true⟩, KBOp.add (some 1) 1 ⟨true, false⟩,
       KBOp.reload]).1.index.length = 2 ∧
    (runOps (loadOrCreateIndex (⟨none, none⟩ : DiskState ℕ ℕ), ⟨none, none⟩)
      [KBOp.add (some 0) 0 ⟨true, true⟩, KBOp.add (some 1) 1 ⟨true, false⟩,
       KBOp.reload]).1.suppliers.length = 1 := by
  decide

/-- Claim C2 (amended): after any sequence of `add_supplier`,
`add_suppliers_batch` and reload operations — with arbitrary per-item
embedding failures — the metadata list length equals the vector count,
provided no save partially fails by writing the index file while failing the
metadata write (each insertion appends to both structures in the same call,
so the in-memory pair stays in lock-step, and such saves keep the two disk
files in lock-step as well, so reloads preserve the invariant). -/
theorem claim_C2_amended {V M : Type} (d0 : DiskState V M)
    (ops : List (KBOp V M)) (hd0 : diskOk d0)
    (hops : ∀ op ∈ ops, goodOp op) :
    lockstep (runOps (loadOrCreateIndex d0, d0) ops).1 :=
  (runOps_preserves ops (loadOrCreateIndex d0, d0)
    (loadOrCreateIndex_lockstep d0 hd0) hd0 hops).1

/-- Witness for C2's amended theorem: a concrete run with a full-success
save, a batch containing an embedding failure whose save fails entirely, and
a reload, ending in lock-step. -/
theorem claim_C2_witness :
    diskOk (⟨none, none⟩ : DiskState ℕ ℕ) ∧
    (∀ op ∈ ([KBOp.add (some 0) 0 ⟨true, true⟩,
              KBOp.addBatch [(some 1, 1), (none, 2)] ⟨false, false⟩,
              KBOp.reload] : List (KBOp ℕ ℕ)), goodOp op) ∧
    lockstep (runOps
      (loadOrCreateIndex (⟨none, none⟩ : DiskState ℕ ℕ), ⟨none, none⟩)
      [KBOp.add (some 0) 0 ⟨true, true⟩,
       KBOp.addBatch [(some 1, 1), (none, 2)] ⟨false, false⟩,
       KBOp.reload]).1 :=
  ⟨(by intro i hi m hm; cases hi), (by decide),
   claim_C2_amended ⟨none, none⟩ _ (by intro i hi m hm; cases hi) (by decide)⟩

/-- Claim C10: when the embedding provider call raises during `add_supplier`,
the exception is caught and `False` is returned, with the in-memory index,
the metadata list and both on-disk files left exactly as they were. -/
theorem claim_C10_add_embed_failure_noop {V M : Type} (kb : KB V M)
    (d : DiskState V M) (m : M) (o : SaveOutcome) :
    addSupplier kb d none m o = ⟨kb, d, false⟩ :=
  rfl

/-- Claim C4, counterexample: on a non-empty store, an embedding failure
inside `search_suppliers` is caught by the blanket `except` and surfaces as
the plain empty list — exactly the generic no-results value — rather than
propagating as a distinguishable SearchFailure. -/
theorem claim_C4_counterexample :
    searchSuppliers [sampleMeta "A"] (none : Option ℕ) faissNone 5 (1 / 2) = [] ∧
    ([sampleMeta "A"] : List SupplierMeta) ≠ [] :=
  ⟨rfl, by simp⟩

/-- Claim C4 (amended): an embedding failure in `add_supplier` surfaces as a
`False` return with state untouched, while an embedding failure in
`search_suppliers` is caught and downgraded to the empty list, which is
indistinguishable from a no-results return. -/
theorem claim_C4_amended {V M : Type} (kb : KB V M) (d : DiskState V M)
    (m : M) (o : SaveOutcome) (sups : List SupplierMeta)
    (f : V → ℕ → List (ℝ × ℕ)) (k : ℕ) (ms : ℝ) :
    addSupplier kb d none m o = ⟨kb, d, false⟩ ∧
    searchSuppliers sups (none : Option V) f k ms = [] := by
  refine ⟨rfl, ?_⟩
  unfold searchSuppliers
  by_cases h : sups.length = 0 <;> simp [h]

/-- Claim C8, counterexample: when both disk writes of `_save_index` fail,
`add_supplier` still returns `True` — the very value returned on full
success — so the persistence failure is not reported to the immediate
caller as a distinguishable error condition (it is only printed). -/
theorem claim_C8_counterexample :
    (addSupplier (⟨[], []⟩ : KB ℕ ℕ) ⟨none, none⟩ (some 7) 3
        ⟨false, false⟩).ok =
      (addSupplier (⟨[], []⟩ : KB ℕ ℕ) ⟨none, none⟩ (some 7) 3
        ⟨true, true⟩).ok ∧
    (addSupplier (⟨[], []⟩ : KB ℕ ℕ) ⟨none, none⟩ (some 7) 3
        ⟨false, false⟩).disk ≠
      (addSupplier (⟨[], []⟩ : KB ℕ ℕ) ⟨none, none⟩ (some 7) 3
        ⟨true, true⟩).disk := by
  decide

/-- Claim C8 (amended): if the disk write fails during `add_supplier` or
`add_suppliers_batch`, the in-memory index and metadata keep the appended
entries and remain usable (no rollback), but the failure is swallowed inside
`_save_index`: `add_supplier` still returns `True`, the on-disk files are
simply left stale, and the batch success count is unaffected. -/
theorem claim_C8_amended {V M : Type} (kb : KB V M) (d : DiskState V M)
    (v : V) (m : M) (o : SaveOutcome) (b : Bool)
    (items : List (Option V × M)) :
    (addSupplier kb d (some v) m o).kb =
      ⟨kb.index ++ [v], kb.suppliers ++ [m]⟩ ∧
    (addSupplier kb d (some v) m o).ok = true ∧
    (addSupplier kb d (some v) m ⟨false, b⟩).disk = d ∧
    (addSuppliersBatch kb d items ⟨false, b⟩).2.2 =
      (addSuppliersBatch kb d items o).2.2 := by
  refine ⟨rfl, rfl, rfl, ?_⟩
  unfold addSuppliersBatch
  dsimp only
  by_cases hsucc :
      (items.filterMap (fun it => it.1.map (fun v => (v, it.2)))).isEmpty <;>
    simp [hsucc]

/-- Claim C9, counterexample: a supplier whose category, snippet, reason and
match type are all empty still gets all five labelled lines in its document
text (every part starts with a non-empty label, so the truthiness filter
never drops a line), contradicting the claimed omission of empty fields as
expressed by the spec-worded construction. -/
theorem claim_C9_counterexample :
    buildDocumentContent ⟨"Acme", "", "", "", ""⟩ ≠
      buildDocumentContentSpec ⟨"Acme", "", "", "", ""⟩ := by
  decide

/-- Claim C9 (amended): the document text is the newline-join of all five
labelled lines — company name, category, match type, snippet, reason, in
that fixed order — with no line ever omitted: each part contains its
non-empty label even when the field value is empty, so the empty-string
filter keeps everything. -/
theorem claim_C9_amended (s : SupplierInput) :
    buildDocumentContent s = String.intercalate "\n"
      ["公司名称: " ++ s.title, "类别: " ++ s.category,
       "类型: " ++ s.match_type, "描述: " ++ s.snippet,
       "评价: " ++ s.reason] := by
  have hkeep : ∀ p ∈ ["公司名称: " ++ s.title, "类别: " ++ s.category,
      "类型: " ++ s.match_type, "描述: " ++ s.snippet, "评价: " ++ s.reason],
      (!(p == "")) = true := by
    intro p hp
    simp only [List.mem_cons, List.not_mem_nil, or_false] at hp
    rcases hp with h | h | h | h | h <;>
      (rw [h, Bool.not_eq_true', beq_eq_false_iff_ne];
       exact append_label_ne_empty _ _ (by decide))
  unfold buildDocumentContent
  dsimp only
  rw [List.filter_eq_self.mpr hkeep]

/-- Claim C7: the merged list returned by `HybridSearchEngine.search` never
exceeds `local_k + google_k` entries, however many local and web candidates
were available (the code in fact truncates to `google_k`). -/
theorem claim_C7_merge_cap {V : Type} (fmt2 : ℝ → String)
    (sups : List SupplierMeta) (e : Option V)
    (f : V → ℕ → List (ℝ × ℕ)) (graw : List GRaw) (lk gk : ℕ) (ms : ℝ) :
    (hybridSearch fmt2 sups e f graw lk gk ms).merged.length ≤ lk + gk := by
  have h := mergeResults_length_le fmt2 (searchLocal sups e f lk ms)
    (if (searchLocal sups e f lk ms).length < gk then searchGoogle graw gk
     else []) gk
  exact le_trans h (Nat.le_add_left gk lk)

/-- Claim C6: `_search_google` is invoked by `HybridSearchEngine.search`
exactly when the number of threshold-surviving local results is below
`google_k`; otherwise no web call happens and the web contribution to the
statistics is zero. -/
theorem claim_C6_conditional_fallback {V : Type} (fmt2 : ℝ → String)
    (sups : List SupplierMeta) (e : Option V)
    (f : V → ℕ → List (ℝ × ℕ)) (graw : List GRaw) (lk gk : ℕ) (ms : ℝ) :
    ((hybridSearch fmt2 sups e f graw lk gk ms).googleCalled = true ↔
      (searchLocal sups e f lk ms).length < gk) ∧
    (hybridSearch fmt2 sups e f graw lk gk ms).stats.google_count =
      (if (searchLocal sups e f lk ms).length < gk then min gk graw.length
       else 0) := by
  constructor
  · exact decide_eq_true_iff
  · show (if (searchLocal sups e f lk ms).length < gk
        then searchGoogle graw gk else []).length = _
    by_cases h : (searchLocal sups e f lk ms).length < gk
    · simp [h, searchGoogle, List.length_take]
    · simp [h]

/-- Claim C1 (amended): the merged list of `HybridSearchEngine.search` is
the locally found candidates (mapped, in similarity order) followed by the
appended web results — a subsequence of the (tagged, pre-truncated) web
results, in their received order, with pairwise-distinct lowercased titles
all distinct from every local title — truncated to `google_k`, the
`target_count` actually passed to `_merge_results` (so local results beyond
`google_k` are dropped, unlike the claimed `local_k + google_k` cap);
appending stops once the accumulated count reaches `google_k` (at most one
web append beyond it, removed by the truncation), and as long as the cap was
not reached every web result with a fresh case-insensitive name has its name
represented among the appended entries. -/
theorem claim_C1_amended {V : Type} (fmt2 : ℝ → String)
    (sups : List SupplierMeta) (e : Option V)
    (f : V → ℕ → List (ℝ × ℕ)) (graw : List GRaw) (lk gk : ℕ) (ms : ℝ) :
    ∃ extra : List GCand,
      (hybridSearch fmt2 sups e f graw lk gk ms).merged =
        (((searchLocal sups e f lk ms).map
            (fun r => MEntry.loc (mergedLocalEntry fmt2 r)))
          ++ extra.map MEntry.web).take gk ∧
      extra.Sublist
        (if (searchLocal sups e f lk ms).length < gk
         then searchGoogle graw gk else []) ∧
      (extra.map (fun g => g.title.toLower)).Nodup ∧
      (∀ g ∈ extra, g.title.toLower ∉
        (searchLocal sups e f lk ms).map
          (fun r => (mergedLocalEntry fmt2 r).title.toLower)) ∧
      (searchLocal sups e f lk ms).length + extra.length ≤
        max gk ((searchLocal sups e f lk ms).length + 1) ∧
      ((searchLocal sups e f lk ms).length + extra.length < gk →
        ∀ g ∈ (if (searchLocal sups e f lk ms).length < gk
               then searchGoogle graw gk else []),
          g.title.toLower ∉
              (searchLocal sups e f lk ms).map
                (fun r => (mergedLocalEntry fmt2 r).title.toLower) →
            g.title.toLower ∈ extra.map (fun g => g.title.toLower)) := by
  obtain ⟨extra, h1, h2, h3, h4, h5, h6⟩ := mergeResults_spec fmt2
    (searchLocal sups e f lk ms)
    (if (searchLocal sups e f lk ms).length < gk
     then searchGoogle graw gk else []) gk
  exact ⟨extra, h1, h2, h3, h4, h5, h6⟩

/-- Claim C3 (amended): `_search_local` calls `search_suppliers(query, k)`
without forwarding the caller's `min_similarity`, so the default `0.5`
threshold applies on the unrounded similarity, and the caller's
`min_similarity` is then applied to the rounded `similarity_score`: a record
is retained iff it passes both thresholds. -/
theorem claim_C3_amended {V : Type} (sups : List SupplierMeta) (v : V)
    (f : V → ℕ → List (ℝ × ℕ)) (k : ℕ) (ms : ℝ) (r : ScoredSupplier) :
    r ∈ searchLocal sups (some v) f k ms ↔
      ∃ p ∈ f v (min k sups.length),
        sups[p.2]? = some r.meta ∧
        (1 / 2 : ℝ) ≤ Real.exp (-p.1 / 10) ∧
        ms ≤ round3 (Real.exp (-p.1 / 10)) ∧
        r.similarity_score = round3 (Real.exp (-p.1 / 10)) ∧
        r.distance = round3 p.1 := by
  unfold searchLocal searchSuppliers
  rw [List.mem_filter]
  by_cases h0 : sups.length = 0
  · rw [if_pos h0]
    simp only [List.not_mem_nil, false_and, false_iff]
    rintro ⟨p, _, hmeta, _⟩
    rw [List.length_eq_zero.mp h0] at hmeta
    simp at hmeta
  · rw [if_neg h0]
    dsimp only
    rw [mem_searchSuppliersPost]
    constructor
    · rintro ⟨⟨p, hp, hmeta, hc, hs, hd⟩, hms⟩
      rw [decide_eq_true_iff] at hms
      exact ⟨p, hp, hmeta, hc, by rw [← hs]; exact hms, hs, hd⟩
    · rintro ⟨p, hp, hmeta, hc, hms, hs, hd⟩
      exact ⟨⟨p, hp, hmeta, hc, hs, hd⟩,
        by rw [decide_eq_true_iff, hs]; exact hms⟩

/-- Claim C3, counterexample: a store whose single record sits at distance
10 from the query has similarity `exp(-1) ≈ 0.368`, which meets the caller's
`min_similarity = 0.3`; the claim would retain it, but `_search_local`
returns nothing because `search_suppliers` was invoked with its default
`0.5` threshold, not the caller's. -/
theorem claim_C3_counterexample :
    searchLocal [sampleMeta "A"] (some (0 : ℕ)) faissTen 5 (3 / 10) = [] ∧
    (3 / 10 : ℝ) ≤ Real.exp (-(10 : ℝ) / 10) := by
  have hrw : (-(10 : ℝ) / 10) = -1 := by norm_num
  constructor
  · unfold searchLocal searchSuppliers
    rw [if_neg (by simp : ¬(([sampleMeta "A"] : List SupplierMeta).length = 0))]
    dsimp only
    unfold searchSuppliersPost faissTen
    simp
    intro h
    linarith [exp_neg_one_lt_half]
  · rw [hrw]
    exact le_of_lt three_tenths_lt_exp_neg_one

/-- Claim C1, counterexample: with the default budgets `local_k = 5`,
`google_k = 3` and four threshold-surviving local results, the web search is
skipped and the merge — called with `target_count = google_k = 3`, not
`local_k + google_k = 8` — truncates the list to 3, dropping a local
result, contrary to the claim that no local result is ever dropped. -/
theorem claim_C1_counterexample :
    (hybridSearch fmtConst sampleStore4 (some (0 : ℕ)) faissFour [] 5 3
      (6 / 10)).stats.local_count = 4 ∧
    (hybridSearch fmtConst sampleStore4 (some (0 : ℕ)) faissFour [] 5 3
      (6 / 10)).merged.length = 3 := by
  have hc : (1 / 2 : ℝ) ≤ Real.exp (-(0 : ℝ) / 10) := by
    norm_num [Real.exp_zero]
  have hs : round3 (Real.exp (-(0 : ℝ) / 10)) = 1 := by
    norm_num [Real.exp_zero, round3_one]
  have g0 : sampleStore4[(0 : ℕ)]? = some (sampleMeta "A") := rfl
  have g1 : sampleStore4[(1 : ℕ)]? = some (sampleMeta "B") := rfl
  have g2 : sampleStore4[(2 : ℕ)]? = some (sampleMeta "C") := rfl
  have g3 : sampleStore4[(3 : ℕ)]? = some (sampleMeta "D") := rfl
  have hsearch : searchSuppliers sampleStore4 (some (0 : ℕ)) faissFour 5
      (1 / 2) =
      [⟨sampleMeta "A", 1, round3 0⟩, ⟨sampleMeta "B", 1, round3 0⟩,
       ⟨sampleMeta "C", 1, round3 0⟩, ⟨sampleMeta "D", 1, round3 0⟩] := by
    unfold searchSuppliers
    rw [if_neg (by simp [sampleStore4] : ¬(sampleStore4.length = 0))]
    dsimp only
    unfold searchSuppliersPost faissFour
    rw [List.filterMap_cons, List.filterMap_cons, List.filterMap_cons,
      List.filterMap_cons, List.filterMap_nil]
    dsimp only
    rw [g0, g1, g2, g3]
    dsimp only
    simp only [if_pos hc, hs]
  have hfil : (decide ((6 : ℝ) / 10 ≤ (1 : ℝ))) = true :=
    decide_eq_true (by norm_num)
  have hloc : searchLocal sampleStore4 (some (0 : ℕ)) faissFour 5 (6 / 10) =
      [⟨sampleMeta "A", 1, round3 0⟩, ⟨sampleMeta "B", 1, round3 0⟩,
       ⟨sampleMeta "C", 1, round3 0⟩, ⟨sampleMeta "D", 1, round3 0⟩] := by
    unfold searchLocal
    rw [hsearch]
    simp only [List.filter_cons, List.filter_nil, hfil, if_true]
  have hlen : (searchLocal sampleStore4 (some (0 : ℕ)) faissFour 5
      (6 / 10)).length = 4 := by
    rw [hloc]
    rfl
  constructor
  · exact hlen
  · show (mergeResults fmtConst
        (searchLocal sampleStore4 (some (0 : ℕ)) faissFour 5 (6 / 10))
        (if (searchLocal sampleStore4 (some (0 : ℕ)) faissFour 5
              (6 / 10)).length < 3
         then searchGoogle [] 3 else []) 3).length = 3
    rw [hlen, if_neg (by norm_num)]
    rw [hloc]
    simp [mergeResults, mergeLoop, List.length_take]

/-- Claim C5 (amended): every record returned by `search_suppliers` comes
from a FAISS `(distance, index)` pair whose unrounded similarity
`exp(-distance/10)` lies in `(0, 1]` and meets `min_similarity`, and the
record is annotated with that similarity and the distance each rounded to 3
decimals; the returned records preserve the ascending-distance order of the
FAISS output; and on an empty store the result is `[]` without raising. -/
theorem claim_C5_amended {V : Type} (sups : List SupplierMeta) (v : V)
    (f : V → ℕ → List (ℝ × ℕ)) (k : ℕ) (ms : ℝ)
    (hsorted : (f v (min k sups.length)).Pairwise (fun a b => a.1 ≤ b.1))
    (hnn : ∀ p ∈ f v (min k sups.length), (0 : ℝ) ≤ p.1) :
    (∀ r ∈ searchSuppliers sups (some v) f k ms,
      ∃ p ∈ f v (min k sups.length),
        sups[p.2]? = some r.meta ∧
        ms ≤ Real.exp (-p.1 / 10) ∧
        0 < Real.exp (-p.1 / 10) ∧ Real.exp (-p.1 / 10) ≤ 1 ∧
        r.similarity_score = round3 (Real.exp (-p.1 / 10)) ∧
        r.distance = round3 p.1) ∧
    (searchSuppliers sups (some v) f k ms).Pairwise
      (fun r s => r.distance ≤ s.distance) ∧
    (∀ (e : Option V) (fo : V → ℕ → List (ℝ × ℕ)) (ms' : ℝ),
      searchSuppliers ([] : List SupplierMeta) e fo k ms' = []) := by
  refine ⟨?_, ?_, ?_⟩
  · intro r hr
    unfold searchSuppliers at hr
    by_cases h0 : sups.length = 0
    · rw [if_pos h0] at hr
      cases hr
    · rw [if_neg h0] at hr
      dsimp only at hr
      rw [mem_searchSuppliersPost] at hr
      obtain ⟨p, hp, hmeta, hc, hsim, hd⟩ := hr
      refine ⟨p, hp, hmeta, hc, Real.exp_pos _, ?_, hsim, hd⟩
      have hppos := hnn p hp
      calc Real.exp (-p.1 / 10) ≤ Real.exp 0 :=
            Real.exp_le_exp.mpr (by linarith)
        _ = 1 := Real.exp_zero
  · unfold searchSuppliers
    by_cases h0 : sups.length = 0
    · rw [if_pos h0]
      simp
    · rw [if_neg h0]
      dsimp only
      exact searchSuppliersPost_pairwise _ _ _ hsorted
  · intro e fo ms'
    unfold searchSuppliers
    simp

/-- Witness for C5's amended theorem: a one-record store queried with one
FAISS hit at distance 0. -/
theorem claim_C5_witness :
    (faissZero 0 (min 1 ([sampleMeta "A"] : List SupplierMeta).length)).Pairwise
      (fun a b => a.1 ≤ b.1) ∧
    (∀ p ∈ faissZero 0 (min 1 ([sampleMeta "A"] : List SupplierMeta).length),
      (0 : ℝ) ≤ p.1) ∧
    ((∀ r ∈ searchSuppliers [sampleMeta "A"] (some (0 : ℕ)) faissZero 1 (1 / 2),
      ∃ p ∈ faissZero 0 (min 1 ([sampleMeta "A"] : List SupplierMeta).length),
        ([sampleMeta "A"] : List SupplierMeta)[p.2]? = some r.meta ∧
        (1 / 2 : ℝ) ≤ Real.exp (-p.1 / 10) ∧
        0 < Real.exp (-p.1 / 10) ∧ Real.exp (-p.1 / 10) ≤ 1 ∧
        r.similarity_score = round3 (Real.exp (-p.1 / 10)) ∧
        r.distance = round3 p.1) ∧
    (searchSuppliers [sampleMeta "A"] (some (0 : ℕ)) faissZero 1
      (1 / 2)).Pairwise (fun r s => r.distance ≤ s.distance) ∧
    (∀ (e : Option ℕ) (fo : ℕ → ℕ → List (ℝ × ℕ)) (ms' : ℝ),
      searchSuppliers ([] : List SupplierMeta) e fo 1 ms' = [])) :=
  ⟨(by simp [faissZero]), (by simp [faissZero]),
   claim_C5_amended [sampleMeta "A"] 0 faissZero 1 (1 / 2)
     (by simp [faissZero]) (by simp [faissZero])⟩

/-- Claim C5, counterexample: for a record at distance 10 the code annotates
`similarity_score` with `round(exp(-1), 3) = 0.368`, which is not equal to
`exp(-distance/10)` itself, so the returned record is not annotated with the
exact similarity (nor the raw distance in general) as claimed. -/
theorem claim_C5_counterexample :
    searchSuppliers [sampleMeta "A"] (some (0 : ℕ)) faissTen 5 (1 / 4) =
      [⟨sampleMeta "A", round3 (Real.exp (-(10 : ℝ) / 10)),
        round3 (10 : ℝ)⟩] ∧
    round3 (Real.exp (-(10 : ℝ) / 10)) ≠ Real.exp (-(10 : ℝ) / 10) := by
  have hrw : (-(10 : ℝ) / 10) = -1 := by norm_num
  have hE1 : (2.7182818283 : ℝ) < Real.exp 1 := Real.exp_one_gt_d9
  have hE2 : Real.exp 1 < 2.7182818286 := Real.exp_one_lt_d9
  have hEpos : (0 : ℝ) < Real.exp 1 := Real.exp_pos 1
  have hinv : (Real.exp 1)⁻¹ * Real.exp 1 = 1 :=
    inv_mul_cancel₀ (ne_of_gt hEpos)
  have hx1 : (0.3675 : ℝ) < (Real.exp 1)⁻¹ := by
    nlinarith [inv_pos.mpr hEpos]
  have hx2 : (Real.exp 1)⁻¹ < (0.368 : ℝ) := by
    nlinarith [inv_pos.mpr hEpos]
  constructor
  · have hc : (1 / 4 : ℝ) ≤ Real.exp (-(10 : ℝ) / 10) := by
      rw [hrw]
      linarith [three_tenths_lt_exp_neg_one]
    have gA : ([sampleMeta "A"] : List SupplierMeta)[(0 : ℕ)]? =
        some (sampleMeta "A") := rfl
    unfold searchSuppliers
    rw [if_neg (by simp : ¬(([sampleMeta "A"] : List SupplierMeta).length = 0))]
    dsimp only
    unfold searchSuppliersPost faissTen
    rw [List.filterMap_cons, List.filterMap_nil]
    dsimp only
    rw [gA]
    dsimp only
    rw [if_pos hc]
  · rw [hrw, Real.exp_neg]
    have hround : round ((Real.exp 1)⁻¹ * 1000) = 368 := by
      rw [round_eq]
      apply Int.floor_eq_iff.mpr
      constructor
      · push_cast
        nlinarith
      · push_cast
        nlinarith
    unfold round3
    rw [hround]
    intro heq
    push_cast at heq
    nlinarith [heq, hx2]

end SupplierMatcher
